import Mathlib

/-!
# Guest services entry point: `qemu_call` of `hw/arm/guest-services.c`

A shallow embedding of the hypercall entry point `qemu_call` and of the
process-wide variable `guest_svcs_errno`.

The function talks to four kinds of collaborators that live outside the file:
the guest memory accessor `cpu_memory_rw_debug`, the patch primitive
`xnu_hook_tr_copy_install`, the service handlers `qc_handle_*`, and the machine
object `N66_MACHINE(qdev_get_machine())`.  Each of them is a parameter of the
model, and every call the C code makes to one of them appends one event to a
trace, so that "which calls were made, in which order, with which arguments" is
an observable of the model.

The declarations of `hw/arm/guest-services/general.h` (the enumerators `QC_*`,
the layout of `qemu_call_t`) and the host constants `F_GETFL`, `F_SETFL`,
`EINVAL` are parameters as well.
-/

namespace GuestServices

/-! ## Data model -/

/-- One in-guest code patch, `KernelTrHookParams`: the eight fields that
`qemu_call` reads. -/
structure KernelTrHookParams where
  va : Nat
  pa : Nat
  buf_va : Nat
  buf_pa : Nat
  code : Nat
  code_size : Nat
  buf_size : Nat
  scratch_reg : Nat
deriving DecidableEq, Repr

/-- The part of `N66MachineState` that `qemu_call` reads: `nms->hook`, the array
`nms->hook_funcs[]` and its length `nms->hook_funcs_count`. -/
structure N66MachineState where
  hook : KernelTrHookParams
  hook_funcs : Nat → KernelTrHookParams
  hook_funcs_count : Nat

/-- The part of `CPUARMState` that `qemu_call` reads: the general registers
`env->xregs[]`. -/
structure CPUARMState where
  xregs : Nat → Nat

/-- The call record `qemu_call_t`.  The union `args` is kept as one value of an
arbitrary payload type `A`; its members are read through an `ArgsLayout`. -/
structure qemu_call_t (A : Type) where
  call_number : Int
  args : A
  retval : Int
  error : Int
deriving DecidableEq, Repr

/-- The members of the union `qcall.args` that `qemu_call` reads, one projection
per `qcall.args.<variant>.<field>` expression of the source. -/
structure ArgsLayout (A : Type) where
  close_fd : A → Int
  fcntl_fd : A → Int
  fcntl_cmd : A → Int
  fcntl_flags : A → Int
  socket_domain : A → Int
  socket_type : A → Int
  socket_protocol : A → Int
  accept_socket : A → Int
  accept_addr : A → Int
  accept_addrlen : A → Int
  bind_socket : A → Int
  bind_addr : A → Int
  bind_addrlen : A → Int
  connect_socket : A → Int
  connect_addr : A → Int
  connect_addrlen : A → Int
  listen_socket : A → Int
  listen_backlog : A → Int
  recv_socket : A → Int
  recv_buffer : A → Int
  recv_length : A → Int
  recv_flags : A → Int
  send_socket : A → Int
  send_buffer : A → Int
  send_length : A → Int
  send_flags : A → Int
  write_file_buffer_guest_ptr : A → Int
  write_file_length : A → Int
  write_file_offset : A → Int
  write_file_index : A → Int
  read_file_buffer_guest_ptr : A → Int
  read_file_length : A → Int
  read_file_offset : A → Int
  read_file_index : A → Int
  size_file_index : A → Int

/-- The constants the source uses and does not define: the enumerators of
`qemu_call_number_t`, `sizeof(qemu_call_t)`, and the host constants `F_GETFL`,
`F_SETFL`, `EINVAL`.  The labels of one C `switch` are pairwise different (the
compiler rejects a duplicate `case`), which the two proof fields record. -/
structure Constants where
  QC_CLOSE : Int
  QC_FCNTL : Int
  QC_SOCKET : Int
  QC_ACCEPT : Int
  QC_BIND : Int
  QC_CONNECT : Int
  QC_LISTEN : Int
  QC_RECV : Int
  QC_SEND : Int
  QC_WRITE_FILE : Int
  QC_READ_FILE : Int
  QC_SIZE_FILE : Int
  F_GETFL : Int
  F_SETFL : Int
  EINVAL : Int
  sizeof_qemu_call_t : Nat
  call_labels_nodup :
    [QC_CLOSE, QC_FCNTL, QC_SOCKET, QC_ACCEPT, QC_BIND, QC_CONNECT, QC_LISTEN,
      QC_RECV, QC_SEND, QC_WRITE_FILE, QC_READ_FILE, QC_SIZE_FILE].Nodup
  fcntl_labels_ne : F_GETFL ≠ F_SETFL

/-- The enumerated call numbers, in the order of the `case` labels. -/
def Constants.call_numbers (K : Constants) : List Int :=
  [K.QC_CLOSE, K.QC_FCNTL, K.QC_SOCKET, K.QC_ACCEPT, K.QC_BIND, K.QC_CONNECT,
    K.QC_LISTEN, K.QC_RECV, K.QC_SEND, K.QC_WRITE_FILE, K.QC_READ_FILE,
    K.QC_SIZE_FILE]

/-- A call of one of the service handlers, with its arguments in the order of
the C call (the leading `cpu` argument is the host state of the model). -/
inductive HandlerCall where
  | qc_handle_close (fd : Int)
  | qc_handle_fcntl_getfl (fd : Int)
  | qc_handle_fcntl_setfl (fd flags : Int)
  | qc_handle_socket (domain type protocol : Int)
  | qc_handle_accept (socket addr addrlen : Int)
  | qc_handle_bind (socket addr addrlen : Int)
  | qc_handle_connect (socket addr addrlen : Int)
  | qc_handle_listen (socket backlog : Int)
  | qc_handle_recv (socket buffer length flags : Int)
  | qc_handle_send (socket buffer length flags : Int)
  | qc_handle_write_file (buffer_guest_ptr length offset index : Int)
  | qc_handle_read_file (buffer_guest_ptr length offset index : Int)
  | qc_handle_size_file (index : Int)
deriving DecidableEq, Repr

/-- What a handler hands back: its return value, and the two things it may
change, the last-error slot `guest_svcs_errno` and the host state (guest
memory, host sockets and files). -/
structure HandlerResult (σ : Type) where
  retval : Int
  guest_svcs_errno : Int
  host : σ

/-- The collaborators of `qemu_call`, over a host state `σ` (guest memory and
every host resource).  `cpu_memory_rw_debug` appears once per buffer type and
direction used by the source. -/
structure Collaborators (σ A : Type) where
  /-- The call `cpu_memory_rw_debug(cpu, addr, &qcall, len, 0)`. -/
  read_qcall : σ → Nat → Nat → σ × qemu_call_t A
  /-- The call `cpu_memory_rw_debug(cpu, addr, &qcall, len, 1)`. -/
  write_qcall : σ → Nat → qemu_call_t A → Nat → σ
  /-- The call `cpu_memory_rw_debug(cpu, addr, &value, len, 1)`. -/
  write_value : σ → Nat → Nat → Nat → σ
  /-- The patch primitive, with its eight arguments in order. -/
  xnu_hook_tr_copy_install : σ → Nat → Nat → Nat → Nat → Nat → Nat → Nat → Nat → σ
  /-- The service handlers. -/
  qc_handle : HandlerCall → Int → σ → HandlerResult σ

/-- One call made by `qemu_call` to a collaborator. -/
inductive Event (A : Type) where
  | mem_read (addr len : Nat)
  | mem_write_qcall (addr : Nat) (qcall : qemu_call_t A) (len : Nat)
  | mem_write_value (addr value len : Nat)
  | install (va pa buf_va buf_pa code code_size buf_size scratch_reg : Nat)
  | handler (c : HandlerCall)
deriving DecidableEq, Repr

/-- The state that outlives one call of `qemu_call`: the global
`guest_svcs_errno`, the function-static `hooks_installed`, the machine object
and the host state. -/
structure State (σ : Type) where
  guest_svcs_errno : Int
  hooks_installed : Bool
  nms : N66MachineState
  host : σ

/-- A state together with the calls made so far. -/
structure Run (σ A : Type) where
  st : State σ
  trace : List (Event A)

/-! ## Calls to the collaborators -/

/-- The install event of a parameter set: the eight fields in argument order. -/
def install_event {A : Type} (p : KernelTrHookParams) : Event A :=
  Event.install p.va p.pa p.buf_va p.buf_pa p.code p.code_size p.buf_size
    p.scratch_reg

/-- One call `xnu_hook_tr_copy_install(p.va, p.pa, p.buf_va, p.buf_pa, p.code,
p.code_size, p.buf_size, p.scratch_reg)`. -/
def call_install {σ A : Type} (C : Collaborators σ A) (p : KernelTrHookParams)
    (r : Run σ A) : Run σ A :=
  { st := { r.st with
      host := C.xnu_hook_tr_copy_install r.st.host p.va p.pa p.buf_va p.buf_pa
        p.code p.code_size p.buf_size p.scratch_reg },
    trace := r.trace ++ [install_event p] }

/-- One call `cpu_memory_rw_debug(cpu, addr, &value, len, 1)`. -/
def call_write_value {σ A : Type} (C : Collaborators σ A) (addr value len : Nat)
    (r : Run σ A) : Run σ A :=
  { st := { r.st with host := C.write_value r.st.host addr value len },
    trace := r.trace ++ [Event.mem_write_value addr value len] }

/-- One call `cpu_memory_rw_debug(cpu, addr, &qcall, len, 0)`: the record now in
`qcall`, and the run after the call. -/
def call_read_qcall {σ A : Type} (C : Collaborators σ A) (addr len : Nat)
    (r : Run σ A) : qemu_call_t A × Run σ A :=
  ((C.read_qcall r.st.host addr len).2,
    { st := { r.st with host := (C.read_qcall r.st.host addr len).1 },
      trace := r.trace ++ [Event.mem_read addr len] })

/-- One call `cpu_memory_rw_debug(cpu, addr, &qcall, len, 1)`. -/
def call_write_qcall {σ A : Type} (C : Collaborators σ A) (addr : Nat)
    (qcall : qemu_call_t A) (len : Nat) (r : Run σ A) : Run σ A :=
  { st := { r.st with host := C.write_qcall r.st.host addr qcall len },
    trace := r.trace ++ [Event.mem_write_qcall addr qcall len] }

/-- The result of the handler call `c` made from the run `r`. -/
def handler_result {σ A : Type} (C : Collaborators σ A) (c : HandlerCall)
    (r : Run σ A) : HandlerResult σ :=
  C.qc_handle c r.st.guest_svcs_errno r.st.host

/-- The statement `qcall.retval = qc_handle_...(cpu, ...)`: the handler runs,
may change `guest_svcs_errno` and the host state, and its return value is
stored in `qcall.retval`. -/
def assign_retval {σ A : Type} (C : Collaborators σ A) (qcall : qemu_call_t A)
    (c : HandlerCall) (r : Run σ A) : qemu_call_t A × Run σ A :=
  ({ qcall with retval := (handler_result C c r).retval },
    { st := { r.st with
        guest_svcs_errno := (handler_result C c r).guest_svcs_errno,
        host := (handler_result C c r).host },
      trace := r.trace ++ [Event.handler c] })

/-! ## The entry point -/

/-- The loop `for (i = 0; i < nms->hook_funcs_count; i++)
xnu_hook_tr_copy_install(nms->hook_funcs[i]. ...)` of lines 73-82. -/
def install_hook_funcs {σ A : Type} (C : Collaborators σ A)
    (nms : N66MachineState) (r : Run σ A) : Run σ A :=
  (List.range nms.hook_funcs_count).foldl
    (fun acc i => call_install C (nms.hook_funcs i) acc) r

/-- The branch `if (!value) { ... return; }` of `qemu_call`, lines 55-92. -/
def qemu_call_ready {σ A : Type} (C : Collaborators σ A) (env : CPUARMState)
    (r0 : Run σ A) : Run σ A :=
  let nms := r0.st.nms
  let hook := nms.hook
  let r1 := if 0 ≠ hook.va then call_install C hook r0 else r0
  let r2 :=
    if !r1.st.hooks_installed then
      let r := install_hook_funcs C nms r1
      { r with st := { r.st with hooks_installed := true } }
    else r1
  -- emulate original opcode: str x20, [x23]
  let value := env.xregs 20
  call_write_value C (env.xregs 23) value 8 r2

/-- The statement `switch (qcall.call_number) { ... }` of `qemu_call`,
lines 97-175. -/
def qemu_call_switch {σ A : Type} (K : Constants) (L : ArgsLayout A)
    (C : Collaborators σ A) (qcall : qemu_call_t A) (r : Run σ A) :
    qemu_call_t A × Run σ A :=
  if qcall.call_number = K.QC_CLOSE then
    assign_retval C qcall (.qc_handle_close (L.close_fd qcall.args)) r
  else if qcall.call_number = K.QC_FCNTL then
    if L.fcntl_cmd qcall.args = K.F_GETFL then
      assign_retval C qcall (.qc_handle_fcntl_getfl (L.fcntl_fd qcall.args)) r
    else if L.fcntl_cmd qcall.args = K.F_SETFL then
      assign_retval C qcall
        (.qc_handle_fcntl_setfl (L.fcntl_fd qcall.args) (L.fcntl_flags qcall.args)) r
    else
      ({ qcall with retval := -1 },
        { r with st := { r.st with guest_svcs_errno := K.EINVAL } })
  else if qcall.call_number = K.QC_SOCKET then
    assign_retval C qcall
      (.qc_handle_socket (L.socket_domain qcall.args) (L.socket_type qcall.args)
        (L.socket_protocol qcall.args)) r
  else if qcall.call_number = K.QC_ACCEPT then
    assign_retval C qcall
      (.qc_handle_accept (L.accept_socket qcall.args) (L.accept_addr qcall.args)
        (L.accept_addrlen qcall.args)) r
  else if qcall.call_number = K.QC_BIND then
    assign_retval C qcall
      (.qc_handle_bind (L.bind_socket qcall.args) (L.bind_addr qcall.args)
        (L.bind_addrlen qcall.args)) r
  else if qcall.call_number = K.QC_CONNECT then
    assign_retval C qcall
      (.qc_handle_connect (L.connect_socket qcall.args) (L.connect_addr qcall.args)
        (L.connect_addrlen qcall.args)) r
  else if qcall.call_number = K.QC_LISTEN then
    assign_retval C qcall
      (.qc_handle_listen (L.listen_socket qcall.args) (L.listen_backlog qcall.args)) r
  else if qcall.call_number = K.QC_RECV then
    assign_retval C qcall
      (.qc_handle_recv (L.recv_socket qcall.args) (L.recv_buffer qcall.args)
        (L.recv_length qcall.args) (L.recv_flags qcall.args)) r
  else if qcall.call_number = K.QC_SEND then
    assign_retval C qcall
      (.qc_handle_send (L.send_socket qcall.args) (L.send_buffer qcall.args)
        (L.send_length qcall.args) (L.send_flags qcall.args)) r
  else if qcall.call_number = K.QC_WRITE_FILE then
    assign_retval C qcall
      (.qc_handle_write_file (L.write_file_buffer_guest_ptr qcall.args)
        (L.write_file_length qcall.args) (L.write_file_offset qcall.args)
        (L.write_file_index qcall.args)) r
  else if qcall.call_number = K.QC_READ_FILE then
    assign_retval C qcall
      (.qc_handle_read_file (L.read_file_buffer_guest_ptr qcall.args)
        (L.read_file_length qcall.args) (L.read_file_offset qcall.args)
        (L.read_file_index qcall.args)) r
  else if qcall.call_number = K.QC_SIZE_FILE then
    assign_retval C qcall (.qc_handle_size_file (L.size_file_index qcall.args)) r
  else
    -- TODO: handle unknown call numbers
    (qcall, r)

/-- Lines 97-180 of `qemu_call`, from the record `qcall` that the read has
delivered: the switch, `qcall.error = guest_svcs_errno`, and the write of the
response to `value`. -/
def qemu_call_request {σ A : Type} (K : Constants) (L : ArgsLayout A)
    (C : Collaborators σ A) (value : Nat) (qcall : qemu_call_t A) (r : Run σ A) :
    Run σ A :=
  let sw := qemu_call_switch K L C qcall r
  let qcall := { sw.1 with error := sw.2.st.guest_svcs_errno }
  -- Write the response
  call_write_qcall C value qcall K.sizeof_qemu_call_t sw.2

/-- The function `qemu_call(env, ri, value)`, run from the state `s`: the state
it leaves and the calls it made. -/
def qemu_call {σ A : Type} (K : Constants) (L : ArgsLayout A)
    (C : Collaborators σ A) (env : CPUARMState) (value : Nat) (s : State σ) :
    Run σ A :=
  if value = 0 then
    qemu_call_ready C env { st := s, trace := [] }
  else
    -- Read the request
    let rd := call_read_qcall C value K.sizeof_qemu_call_t { st := s, trace := [] }
    qemu_call_request K L C value rd.1 rd.2

/-- One trap: the register file and the value the guest wrote. -/
structure Trap where
  env : CPUARMState
  value : Nat

/-- A sequence of traps, each handled by `qemu_call` from the state the previous
one left: the final state and the trace of every trap, in order. -/
def run_traps {σ A : Type} (K : Constants) (L : ArgsLayout A)
    (C : Collaborators σ A) : List Trap → State σ → State σ × List (List (Event A))
  | [], s => (s, [])
  | t :: ts, s =>
    ((run_traps K L C ts (qemu_call K L C t.env t.value s).st).1,
      (qemu_call K L C t.env t.value s).trace ::
        (run_traps K L C ts (qemu_call K L C t.env t.value s).st).2)

/-! ## Observations on a trace -/

/-- The handler call of an event, when the event is one. -/
def Event.handler_call {A : Type} : Event A → Option HandlerCall
  | Event.handler c => some c
  | _ => none

/-- Whether an event is a call of the patch primitive. -/
def Event.is_install {A : Type} : Event A → Bool
  | Event.install _ _ _ _ _ _ _ _ => true
  | _ => false

/-- Whether an event is a guest-memory access (a call of
`cpu_memory_rw_debug`). -/
def Event.is_memory {A : Type} : Event A → Bool
  | Event.mem_read _ _ => true
  | Event.mem_write_qcall _ _ _ => true
  | Event.mem_write_value _ _ _ => true
  | _ => false

/-- The call record an event writes to guest memory, when it writes one. -/
def Event.written_qcall {A : Type} : Event A → Option (qemu_call_t A)
  | Event.mem_write_qcall _ q _ => some q
  | _ => none

/-- The handler calls of a trace, in order. -/
def handler_calls {A : Type} (t : List (Event A)) : List HandlerCall :=
  t.filterMap Event.handler_call

/-- The calls of the patch primitive in a trace, in order. -/
def install_calls {A : Type} (t : List (Event A)) : List (Event A) :=
  t.filter Event.is_install

/-- The guest-memory accesses of a trace, in order. -/
def memory_calls {A : Type} (t : List (Event A)) : List (Event A) :=
  t.filter Event.is_memory

/-- The call records written to guest memory in a trace, in order. -/
def written_qcalls {A : Type} (t : List (Event A)) : List (qemu_call_t A) :=
  t.filterMap Event.written_qcall

/-- The record that the read at the start of a request delivers from the
state `s`. -/
def request_of {σ A : Type} (K : Constants) (C : Collaborators σ A) (value : Nat)
    (s : State σ) : qemu_call_t A :=
  (C.read_qcall s.host value K.sizeof_qemu_call_t).2

/-- The installs of the address gate of lines 63-70: one call with the fields of
`nms->hook` when `hook->va` is not zero, none otherwise. -/
def gate_installs {A : Type} (nms : N66MachineState) : List (Event A) :=
  if 0 ≠ nms.hook.va then [install_event nms.hook] else []

/-- The installs of the list `nms->hook_funcs[0 .. hook_funcs_count-1]`, one per
entry in index order. -/
def list_installs {A : Type} (nms : N66MachineState) : List (Event A) :=
  (List.range nms.hook_funcs_count).map (fun i => install_event (nms.hook_funcs i))

/-! ## The routing table of the specification -/

/-- The routing table as the specification words it: the handler call that each
recognised call number (and, for `QC_FCNTL`, each recognised sub-command) is
routed to, with the fields of the matching `args` variant in the documented
order.  It is a table, not a program: the rows are not ordered. -/
def routes {A : Type} (K : Constants) (L : ArgsLayout A) (q : qemu_call_t A)
    (c : HandlerCall) : Prop :=
  (q.call_number = K.QC_CLOSE ∧ c = .qc_handle_close (L.close_fd q.args)) ∨
  (q.call_number = K.QC_FCNTL ∧ L.fcntl_cmd q.args = K.F_GETFL ∧
    c = .qc_handle_fcntl_getfl (L.fcntl_fd q.args)) ∨
  (q.call_number = K.QC_FCNTL ∧ L.fcntl_cmd q.args = K.F_SETFL ∧
    c = .qc_handle_fcntl_setfl (L.fcntl_fd q.args) (L.fcntl_flags q.args)) ∨
  (q.call_number = K.QC_SOCKET ∧
    c = .qc_handle_socket (L.socket_domain q.args) (L.socket_type q.args)
      (L.socket_protocol q.args)) ∨
  (q.call_number = K.QC_ACCEPT ∧
    c = .qc_handle_accept (L.accept_socket q.args) (L.accept_addr q.args)
      (L.accept_addrlen q.args)) ∨
  (q.call_number = K.QC_BIND ∧
    c = .qc_handle_bind (L.bind_socket q.args) (L.bind_addr q.args)
      (L.bind_addrlen q.args)) ∨
  (q.call_number = K.QC_CONNECT ∧
    c = .qc_handle_connect (L.connect_socket q.args) (L.connect_addr q.args)
      (L.connect_addrlen q.args)) ∨
  (q.call_number = K.QC_LISTEN ∧
    c = .qc_handle_listen (L.listen_socket q.args) (L.listen_backlog q.args)) ∨
  (q.call_number = K.QC_RECV ∧
    c = .qc_handle_recv (L.recv_socket q.args) (L.recv_buffer q.args)
      (L.recv_length q.args) (L.recv_flags q.args)) ∨
  (q.call_number = K.QC_SEND ∧
    c = .qc_handle_send (L.send_socket q.args) (L.send_buffer q.args)
      (L.send_length q.args) (L.send_flags q.args)) ∨
  (q.call_number = K.QC_WRITE_FILE ∧
    c = .qc_handle_write_file (L.write_file_buffer_guest_ptr q.args)
      (L.write_file_length q.args) (L.write_file_offset q.args)
      (L.write_file_index q.args)) ∨
  (q.call_number = K.QC_READ_FILE ∧
    c = .qc_handle_read_file (L.read_file_buffer_guest_ptr q.args)
      (L.read_file_length q.args) (L.read_file_offset q.args)
      (L.read_file_index q.args)) ∨
  (q.call_number = K.QC_SIZE_FILE ∧
    c = .qc_handle_size_file (L.size_file_index q.args))

instance {A : Type} (K : Constants) (L : ArgsLayout A) (q : qemu_call_t A)
    (c : HandlerCall) : Decidable (routes K L q c) := by
  unfold routes; infer_instance

/-- The requests that the specification routes to a handler: every enumerated
call number except `QC_FCNTL`, and `QC_FCNTL` with sub-command `F_GETFL` or
`F_SETFL`. -/
def handled {A : Type} (K : Constants) (L : ArgsLayout A) (q : qemu_call_t A) :
    Prop :=
  (q.call_number ∈ K.call_numbers ∧ q.call_number ≠ K.QC_FCNTL) ∨
  (q.call_number = K.QC_FCNTL ∧
    (L.fcntl_cmd q.args = K.F_GETFL ∨ L.fcntl_cmd q.args = K.F_SETFL))

instance {A : Type} (K : Constants) (L : ArgsLayout A) (q : qemu_call_t A) :
    Decidable (handled K L q) := by
  unfold handled; infer_instance

/-! ## Auxiliary definitions for the statements -/

/-- The run in which the switch starts: the state after the read of the
request, and the read as the only call so far. -/
def after_read {σ A : Type} (K : Constants) (C : Collaborators σ A) (value : Nat)
    (s : State σ) : Run σ A :=
  (call_read_qcall C value K.sizeof_qemu_call_t { st := s, trace := [] }).2

/-- The handler result of the call `c` on a request trap: the handler sees the
slot as the trap found it and the host state the read left. -/
def result_of {σ A : Type} (K : Constants) (C : Collaborators σ A) (value : Nat)
    (s : State σ) (c : HandlerCall) : HandlerResult σ :=
  C.qc_handle c s.guest_svcs_errno (C.read_qcall s.host value K.sizeof_qemu_call_t).1

/-! ## A concrete machine -/

/-- Example values for the constants: call numbers in three groups, and the
Linux values of `F_GETFL`, `F_SETFL`, `EINVAL`. -/
def K0 : Constants where
  QC_CLOSE := 0x100
  QC_FCNTL := 0x101
  QC_SOCKET := 0x110
  QC_ACCEPT := 0x111
  QC_BIND := 0x112
  QC_CONNECT := 0x113
  QC_LISTEN := 0x114
  QC_RECV := 0x115
  QC_SEND := 0x116
  QC_WRITE_FILE := 0x120
  QC_READ_FILE := 0x121
  QC_SIZE_FILE := 0x122
  F_GETFL := 3
  F_SETFL := 4
  EINVAL := 22
  sizeof_qemu_call_t := 52
  call_labels_nodup := by decide
  fcntl_labels_ne := by decide

/-- Example layout: the payload is a list of words and every variant stores its
fields in declaration order from word 0. -/
def L0 : ArgsLayout (List Int) where
  close_fd := fun a => a.getD 0 0
  fcntl_fd := fun a => a.getD 0 0
  fcntl_cmd := fun a => a.getD 1 0
  fcntl_flags := fun a => a.getD 2 0
  socket_domain := fun a => a.getD 0 0
  socket_type := fun a => a.getD 1 0
  socket_protocol := fun a => a.getD 2 0
  accept_socket := fun a => a.getD 0 0
  accept_addr := fun a => a.getD 1 0
  accept_addrlen := fun a => a.getD 2 0
  bind_socket := fun a => a.getD 0 0
  bind_addr := fun a => a.getD 1 0
  bind_addrlen := fun a => a.getD 2 0
  connect_socket := fun a => a.getD 0 0
  connect_addr := fun a => a.getD 1 0
  connect_addrlen := fun a => a.getD 2 0
  listen_socket := fun a => a.getD 0 0
  listen_backlog := fun a => a.getD 1 0
  recv_socket := fun a => a.getD 0 0
  recv_buffer := fun a => a.getD 1 0
  recv_length := fun a => a.getD 2 0
  recv_flags := fun a => a.getD 3 0
  send_socket := fun a => a.getD 0 0
  send_buffer := fun a => a.getD 1 0
  send_length := fun a => a.getD 2 0
  send_flags := fun a => a.getD 3 0
  write_file_buffer_guest_ptr := fun a => a.getD 0 0
  write_file_length := fun a => a.getD 1 0
  write_file_offset := fun a => a.getD 2 0
  write_file_index := fun a => a.getD 3 0
  read_file_buffer_guest_ptr := fun a => a.getD 0 0
  read_file_length := fun a => a.getD 1 0
  read_file_offset := fun a => a.getD 2 0
  read_file_index := fun a => a.getD 3 0
  size_file_index := fun a => a.getD 0 0

/-- Example host state: guest memory as a map from addresses to call records. -/
abbrev Mem0 : Type := Nat → qemu_call_t (List Int)

/-- Example collaborators over `Mem0`: reads and writes of records go to the
map, the emulated store and the patch primitive leave it alone, `socket`
succeeds with handle 3 and clears the slot, every other handler fails with
`-1` and sets the slot to 9. -/
def C0 : Collaborators Mem0 (List Int) where
  read_qcall := fun m addr _ => (m, m addr)
  write_qcall := fun m addr q _ => fun a => if a = addr then q else m a
  write_value := fun m _ _ _ => m
  xnu_hook_tr_copy_install := fun m _ _ _ _ _ _ _ _ => m
  qc_handle := fun c _ m =>
    match c with
    | .qc_handle_socket _ _ _ => { retval := 3, guest_svcs_errno := 0, host := m }
    | _ => { retval := -1, guest_svcs_errno := 9, host := m }

/-- Example register file: `x20 = 0xabcd`, `x23 = 0x9000`, all others zero. -/
def env0 : CPUARMState where
  xregs := fun i => if i = 20 then 0xabcd else if i = 23 then 0x9000 else 0

/-- Example machine object: a hook at `0x1000` and two list entries. -/
def nms0 : N66MachineState where
  hook := { va := 0x1000, pa := 0x2000, buf_va := 0x3000, buf_pa := 0x4000,
            code := 0x5000, code_size := 16, buf_size := 64, scratch_reg := 9 }
  hook_funcs := fun i =>
    { va := 0x10000 + i, pa := 0x20000 + i, buf_va := 0x30000 + i,
      buf_pa := 0x40000 + i, code := 0x50000 + i, code_size := 8, buf_size := 32,
      scratch_reg := 10 }
  hook_funcs_count := 2

/-- Example guest memory: at `0x4000` the request `fcntl(fd = 7, cmd = 99)`, at
`0x5000` a request with the unrecognised call number 0 and incoming
`retval = 11`, `error = 5`, at `0x6000` a `close(fd = 5)`, elsewhere a
`socket(2, 1, 0)`. -/
def mem0 : Mem0 := fun a =>
  if a = 0x4000 then { call_number := 0x101, args := [7, 99], retval := 0, error := 0 }
  else if a = 0x5000 then { call_number := 0, args := [], retval := 11, error := 5 }
  else if a = 0x6000 then { call_number := 0x100, args := [5], retval := 0, error := 0 }
  else { call_number := 0x110, args := [2, 1, 0], retval := 0, error := 0 }

/-- Example initial state: slot 0, hooks not installed. -/
def s0 : State Mem0 where
  guest_svcs_errno := 0
  hooks_installed := false
  nms := nms0
  host := mem0

/-- Example traps: a request trap on the record of `0x5000`. -/
def pre0 : List Trap := [⟨env0, 0x5000⟩]

/-- Example traps: a readiness trap. -/
def ready0 : Trap := ⟨env0, 0⟩

/-- Example traps: a request trap on the record of `0x4000`, then a second
readiness trap. -/
def rest0 : List Trap := [⟨env0, 0x4000⟩, ⟨env0, 0⟩]

/-! ## Lemmas on the switch -/

theorem switch_unknown {σ A : Type} (K : Constants) (L : ArgsLayout A)
    (C : Collaborators σ A) (q : qemu_call_t A) (r : Run σ A)
    (h : q.call_number ∉ K.call_numbers) :
    qemu_call_switch K L C q r = (q, r) := by
  simp only [Constants.call_numbers, List.mem_cons, List.mem_singleton, not_or,
    List.not_mem_nil, not_false_eq_true, and_true] at h
  obtain ⟨h1, h2, h3, h4, h5, h6, h7, h8, h9, h10, h11, h12⟩ := h
  simp [qemu_call_switch, h1, h2, h3, h4, h5, h6, h7, h8, h9, h10, h11, h12]

theorem switch_fcntl_default {σ A : Type} (K : Constants) (L : ArgsLayout A)
    (C : Collaborators σ A) (q : qemu_call_t A) (r : Run σ A)
    (hn : q.call_number = K.QC_FCNTL) (hg : L.fcntl_cmd q.args ≠ K.F_GETFL)
    (hs : L.fcntl_cmd q.args ≠ K.F_SETFL) :
    qemu_call_switch K L C q r =
      ({ q with retval := -1 },
        { r with st := { r.st with guest_svcs_errno := K.EINVAL } }) := by
  have hd := K.call_labels_nodup
  simp only [List.nodup_cons, List.mem_cons, List.mem_singleton, not_or] at hd
  have h1 : ¬ K.QC_FCNTL = K.QC_CLOSE := fun e => hd.1.1 e.symm
  simp [qemu_call_switch, hn, hg, hs, h1]

/-- The labels of the outer switch, read backwards, are pairwise different:
no later label equals an earlier one. -/
theorem Constants.later_ne_earlier (K : Constants) :
    [K.QC_SIZE_FILE, K.QC_READ_FILE, K.QC_WRITE_FILE, K.QC_SEND, K.QC_RECV,
      K.QC_LISTEN, K.QC_CONNECT, K.QC_BIND, K.QC_ACCEPT, K.QC_SOCKET, K.QC_FCNTL,
      K.QC_CLOSE].Nodup :=
  List.nodup_reverse.mp K.call_labels_nodup

theorem switch_routes {σ A : Type} (K : Constants) (L : ArgsLayout A)
    (C : Collaborators σ A) (q : qemu_call_t A) (r : Run σ A) (c : HandlerCall)
    (h : routes K L q c) :
    qemu_call_switch K L C q r = assign_retval C q c r := by
  have hd := K.later_ne_earlier
  have hf := K.fcntl_labels_ne.symm
  simp only [List.nodup_cons, List.mem_cons, List.mem_singleton, not_or,
    List.not_mem_nil, not_false_eq_true, and_true, List.nodup_nil] at hd
  unfold routes at h
  rcases h with ⟨hn, rfl⟩ | ⟨hn, hc, rfl⟩ | ⟨hn, hc, rfl⟩ | ⟨hn, rfl⟩ | ⟨hn, rfl⟩ |
    ⟨hn, rfl⟩ | ⟨hn, rfl⟩ | ⟨hn, rfl⟩ | ⟨hn, rfl⟩ | ⟨hn, rfl⟩ | ⟨hn, rfl⟩ |
    ⟨hn, rfl⟩ | ⟨hn, rfl⟩
  · simp only [qemu_call_switch, hn, if_true]
  · simp only [qemu_call_switch, hn, hc, hd, if_true, if_false]
  · simp only [qemu_call_switch, hn, hc, hd, hf, if_true, if_false]
  all_goals simp only [qemu_call_switch, hn, hd, if_true, if_false]

/-- Every request falls in one of three classes: routed to a handler by the
table, the `default` of the inner switch on the fcntl sub-command, or the
`default` of the outer switch. -/
theorem switch_cases {σ A : Type} (K : Constants) (L : ArgsLayout A)
    (C : Collaborators σ A) (q : qemu_call_t A) (r : Run σ A) :
    (∃ c, routes K L q c ∧ qemu_call_switch K L C q r = assign_retval C q c r) ∨
    (q.call_number = K.QC_FCNTL ∧ L.fcntl_cmd q.args ≠ K.F_GETFL ∧
      L.fcntl_cmd q.args ≠ K.F_SETFL ∧
      qemu_call_switch K L C q r =
        ({ q with retval := -1 },
          { r with st := { r.st with guest_svcs_errno := K.EINVAL } })) ∨
    (q.call_number ∉ K.call_numbers ∧ qemu_call_switch K L C q r = (q, r)) := by
  by_cases hm : q.call_number ∈ K.call_numbers
  · have routed : ∀ c, routes K L q c →
        (∃ c, routes K L q c ∧ qemu_call_switch K L C q r = assign_retval C q c r) :=
      fun c hc => ⟨c, hc, switch_routes K L C q r c hc⟩
    simp only [Constants.call_numbers, List.mem_cons, List.mem_singleton,
      List.not_mem_nil, or_false] at hm
    rcases hm with hn | hn | hn | hn | hn | hn | hn | hn | hn | hn | hn | hn
    · exact Or.inl (routed _ (Or.inl ⟨hn, rfl⟩))
    · by_cases hg : L.fcntl_cmd q.args = K.F_GETFL
      · exact Or.inl (routed _ (Or.inr (Or.inl ⟨hn, hg, rfl⟩)))
      · by_cases hs : L.fcntl_cmd q.args = K.F_SETFL
        · exact Or.inl (routed _ (Or.inr (Or.inr (Or.inl ⟨hn, hs, rfl⟩))))
        · exact Or.inr (Or.inl ⟨hn, hg, hs, switch_fcntl_default K L C q r hn hg hs⟩)
    · exact Or.inl (routed _
        (Or.inr (Or.inr (Or.inr (Or.inl ⟨hn, rfl⟩)))))
    · exact Or.inl (routed _
        (Or.inr (Or.inr (Or.inr (Or.inr (Or.inl ⟨hn, rfl⟩))))))
    · exact Or.inl (routed _
        (Or.inr (Or.inr (Or.inr (Or.inr (Or.inr (Or.inl ⟨hn, rfl⟩)))))))
    · exact Or.inl (routed _
        (Or.inr (Or.inr (Or.inr (Or.inr (Or.inr (Or.inr (Or.inl ⟨hn, rfl⟩))))))))
    · exact Or.inl (routed _
        (Or.inr (Or.inr (Or.inr (Or.inr (Or.inr (Or.inr (Or.inr (Or.inl ⟨hn, rfl⟩)))))))))
    · exact Or.inl (routed _
        (Or.inr (Or.inr (Or.inr (Or.inr (Or.inr (Or.inr (Or.inr (Or.inr (Or.inl ⟨hn, rfl⟩))))))))))
    · exact Or.inl (routed _
        (Or.inr (Or.inr (Or.inr (Or.inr (Or.inr (Or.inr (Or.inr (Or.inr (Or.inr (Or.inl ⟨hn, rfl⟩)))))))))))
    · exact Or.inl (routed _
        (Or.inr (Or.inr (Or.inr (Or.inr (Or.inr (Or.inr (Or.inr (Or.inr (Or.inr (Or.inr (Or.inl ⟨hn, rfl⟩))))))))))))
    · exact Or.inl (routed _
        (Or.inr (Or.inr (Or.inr (Or.inr (Or.inr (Or.inr (Or.inr (Or.inr (Or.inr (Or.inr (Or.inr (Or.inl ⟨hn, rfl⟩)))))))))))))
    · exact Or.inl (routed _
        (Or.inr (Or.inr (Or.inr (Or.inr (Or.inr (Or.inr (Or.inr (Or.inr (Or.inr (Or.inr (Or.inr (Or.inr (⟨hn, rfl⟩))))))))))))))
  · exact Or.inr (Or.inr ⟨hm, switch_unknown K L C q r hm⟩)

/-! ## Lemmas on the readiness branch -/

/-- The loop over `hook_funcs` appends one install per index, in order, and
changes nothing of the state but the host. -/
theorem install_loop {σ A : Type} (C : Collaborators σ A)
    (f : Nat → KernelTrHookParams) (n : Nat) (r : Run σ A) :
    ((List.range n).foldl (fun acc i => call_install C (f i) acc) r).trace =
        r.trace ++ (List.range n).map (fun i => install_event (f i)) ∧
      ((List.range n).foldl (fun acc i => call_install C (f i) acc) r).st.guest_svcs_errno =
        r.st.guest_svcs_errno ∧
      ((List.range n).foldl (fun acc i => call_install C (f i) acc) r).st.hooks_installed =
        r.st.hooks_installed ∧
      ((List.range n).foldl (fun acc i => call_install C (f i) acc) r).st.nms = r.st.nms := by
  induction n with
  | zero => simp
  | succ k ih =>
    obtain ⟨h1, h2, h3, h4⟩ := ih
    simp only [List.range_succ, List.foldl_append, List.foldl_cons, List.foldl_nil,
      List.map_append, List.map_cons, List.map_nil]
    refine ⟨?_, h2, h3, h4⟩
    show _ ++ [install_event (f k)] = _
    rw [h1, List.append_assoc]

theorem install_hook_funcs_trace {σ A : Type} (C : Collaborators σ A)
    (nms : N66MachineState) (r : Run σ A) :
    (install_hook_funcs C nms r).trace = r.trace ++ list_installs nms :=
  (install_loop C nms.hook_funcs nms.hook_funcs_count r).1

theorem install_hook_funcs_errno {σ A : Type} (C : Collaborators σ A)
    (nms : N66MachineState) (r : Run σ A) :
    (install_hook_funcs C nms r).st.guest_svcs_errno = r.st.guest_svcs_errno :=
  (install_loop C nms.hook_funcs nms.hook_funcs_count r).2.1

theorem install_hook_funcs_nms {σ A : Type} (C : Collaborators σ A)
    (nms : N66MachineState) (r : Run σ A) :
    (install_hook_funcs C nms r).st.nms = r.st.nms :=
  (install_loop C nms.hook_funcs nms.hook_funcs_count r).2.2.2

/-- The trace of the readiness branch: the install of the address gate, the
installs of the list when the flag was not yet set, and the emulated store. -/
theorem ready_trace {σ A : Type} (C : Collaborators σ A) (env : CPUARMState)
    (s : State σ) :
    (qemu_call_ready C env ({ st := s, trace := [] } : Run σ A)).trace =
      gate_installs s.nms ++
        (if s.hooks_installed = true then [] else list_installs s.nms) ++
        [Event.mem_write_value (env.xregs 23) (env.xregs 20) 8] := by
  unfold qemu_call_ready gate_installs
  by_cases hv : 0 ≠ s.nms.hook.va <;> by_cases hi : s.hooks_installed = true <;>
    simp [hv, hi, call_install, call_write_value, install_hook_funcs_trace]

/-- The state after the readiness branch: the flag is set, the last-error slot
and the machine object are as before. -/
theorem ready_state {σ A : Type} (C : Collaborators σ A) (env : CPUARMState)
    (s : State σ) :
    (qemu_call_ready C env ({ st := s, trace := [] } : Run σ A)).st.hooks_installed = true ∧
      (qemu_call_ready C env ({ st := s, trace := [] } : Run σ A)).st.guest_svcs_errno =
        s.guest_svcs_errno ∧
      (qemu_call_ready C env ({ st := s, trace := [] } : Run σ A)).st.nms = s.nms := by
  unfold qemu_call_ready
  by_cases hv : 0 ≠ s.nms.hook.va <;> by_cases hi : s.hooks_installed = true <;>
    simp [hv, hi, call_install, call_write_value, install_hook_funcs_errno,
      install_hook_funcs_nms]

/-- Every event of `list_installs` is an install. -/
theorem list_installs_all_install {A : Type} (nms : N66MachineState) :
    ∀ e ∈ (list_installs nms : List (Event A)), e.is_install = true := by
  intro e he
  simp only [list_installs, List.mem_map] at he
  obtain ⟨i, _, rfl⟩ := he
  rfl

/-- Every event of `gate_installs` is an install. -/
theorem gate_installs_all_install {A : Type} (nms : N66MachineState) :
    ∀ e ∈ (gate_installs nms : List (Event A)), e.is_install = true := by
  intro e he
  unfold gate_installs at he
  split_ifs at he
  · simp only [List.mem_singleton] at he
    subst he
    rfl
  · simp at he

/-! ## Lemmas on the request branch -/

theorem qemu_call_nonzero {σ A : Type} (K : Constants) (L : ArgsLayout A)
    (C : Collaborators σ A) (env : CPUARMState) (value : Nat) (s : State σ)
    (hv : value ≠ 0) :
    qemu_call K L C env value s =
      qemu_call_request K L C value (request_of K C value s) (after_read K C value s) := by
  simp only [qemu_call, hv, if_false]
  rfl

theorem after_read_trace {σ A : Type} (K : Constants) (C : Collaborators σ A)
    (value : Nat) (s : State σ) :
    (after_read K C value s : Run σ A).trace =
      [Event.mem_read value K.sizeof_qemu_call_t] := rfl

theorem after_read_errno {σ A : Type} (K : Constants) (C : Collaborators σ A)
    (value : Nat) (s : State σ) :
    (after_read K C value s : Run σ A).st.guest_svcs_errno = s.guest_svcs_errno := rfl

/-- A routed request: the handler call, then the write of the record with the
handler's return value in `retval` and the slot the handler left in `error`. -/
theorem request_routed {σ A : Type} (K : Constants) (L : ArgsLayout A)
    (C : Collaborators σ A) (value : Nat) (q : qemu_call_t A) (r : Run σ A)
    (c : HandlerCall) (h : routes K L q c) :
    qemu_call_request K L C value q r =
      { st := { r.st with
          guest_svcs_errno := (handler_result C c r).guest_svcs_errno,
          host := C.write_qcall (handler_result C c r).host value
            { q with retval := (handler_result C c r).retval,
                     error := (handler_result C c r).guest_svcs_errno }
            K.sizeof_qemu_call_t },
        trace := r.trace ++ [Event.handler c,
          Event.mem_write_qcall value
            { q with retval := (handler_result C c r).retval,
                     error := (handler_result C c r).guest_svcs_errno }
            K.sizeof_qemu_call_t] } := by
  simp [qemu_call_request, switch_routes K L C q r c h, assign_retval,
    call_write_qcall]

/-- The request `QC_FCNTL` with an unrecognised sub-command: no handler call, the
slot becomes `EINVAL`, and the record is written with `retval = -1` and
`error = EINVAL`. -/
theorem request_fcntl_default {σ A : Type} (K : Constants) (L : ArgsLayout A)
    (C : Collaborators σ A) (value : Nat) (q : qemu_call_t A) (r : Run σ A)
    (hn : q.call_number = K.QC_FCNTL) (hg : L.fcntl_cmd q.args ≠ K.F_GETFL)
    (hs : L.fcntl_cmd q.args ≠ K.F_SETFL) :
    qemu_call_request K L C value q r =
      { st := { r.st with
          guest_svcs_errno := K.EINVAL,
          host := C.write_qcall r.st.host value
            { q with retval := -1, error := K.EINVAL } K.sizeof_qemu_call_t },
        trace := r.trace ++ [Event.mem_write_qcall value
            { q with retval := -1, error := K.EINVAL } K.sizeof_qemu_call_t] } := by
  simp [qemu_call_request, switch_fcntl_default K L C q r hn hg hs, call_write_qcall]

/-- A request with a call number outside the enumerated set: no handler call,
and the record is written with `error` set to the slot. -/
theorem request_unknown {σ A : Type} (K : Constants) (L : ArgsLayout A)
    (C : Collaborators σ A) (value : Nat) (q : qemu_call_t A) (r : Run σ A)
    (h : q.call_number ∉ K.call_numbers) :
    qemu_call_request K L C value q r =
      { st := { r.st with
          host := C.write_qcall r.st.host value
            { q with error := r.st.guest_svcs_errno } K.sizeof_qemu_call_t },
        trace := r.trace ++ [Event.mem_write_qcall value
            { q with error := r.st.guest_svcs_errno } K.sizeof_qemu_call_t] } := by
  simp [qemu_call_request, switch_unknown K L C q r h, call_write_qcall]

/-- The whole run of a request trap that the table routes to `c`. -/
theorem qemu_call_routed {σ A : Type} (K : Constants) (L : ArgsLayout A)
    (C : Collaborators σ A) (env : CPUARMState) (value : Nat) (s : State σ)
    (c : HandlerCall) (hv : value ≠ 0) (h : routes K L (request_of K C value s) c) :
    qemu_call K L C env value s =
      { st := { s with
          guest_svcs_errno := (result_of K C value s c).guest_svcs_errno,
          host := C.write_qcall (result_of K C value s c).host value
            { request_of K C value s with
                retval := (result_of K C value s c).retval,
                error := (result_of K C value s c).guest_svcs_errno }
            K.sizeof_qemu_call_t },
        trace := [Event.mem_read value K.sizeof_qemu_call_t, Event.handler c,
          Event.mem_write_qcall value
            { request_of K C value s with
                retval := (result_of K C value s c).retval,
                error := (result_of K C value s c).guest_svcs_errno }
            K.sizeof_qemu_call_t] } := by
  rw [qemu_call_nonzero K L C env value s hv, request_routed K L C value _ _ c h]
  rfl

/-- The whole run of a request trap `QC_FCNTL` with an unrecognised
sub-command. -/
theorem qemu_call_fcntl_default {σ A : Type} (K : Constants) (L : ArgsLayout A)
    (C : Collaborators σ A) (env : CPUARMState) (value : Nat) (s : State σ)
    (hv : value ≠ 0)
    (hn : (request_of K C value s).call_number = K.QC_FCNTL)
    (hg : L.fcntl_cmd (request_of K C value s).args ≠ K.F_GETFL)
    (hs : L.fcntl_cmd (request_of K C value s).args ≠ K.F_SETFL) :
    qemu_call K L C env value s =
      { st := { s with
          guest_svcs_errno := K.EINVAL,
          host := C.write_qcall (C.read_qcall s.host value K.sizeof_qemu_call_t).1 value
            { request_of K C value s with retval := -1, error := K.EINVAL }
            K.sizeof_qemu_call_t },
        trace := [Event.mem_read value K.sizeof_qemu_call_t,
          Event.mem_write_qcall value
            { request_of K C value s with retval := -1, error := K.EINVAL }
            K.sizeof_qemu_call_t] } := by
  rw [qemu_call_nonzero K L C env value s hv,
    request_fcntl_default K L C value _ _ hn hg hs]
  rfl

/-- The whole run of a request trap with an unrecognised call number. -/
theorem qemu_call_unknown {σ A : Type} (K : Constants) (L : ArgsLayout A)
    (C : Collaborators σ A) (env : CPUARMState) (value : Nat) (s : State σ)
    (hv : value ≠ 0)
    (hn : (request_of K C value s).call_number ∉ K.call_numbers) :
    qemu_call K L C env value s =
      { st := { s with
          host := C.write_qcall (C.read_qcall s.host value K.sizeof_qemu_call_t).1 value
            { request_of K C value s with error := s.guest_svcs_errno }
            K.sizeof_qemu_call_t },
        trace := [Event.mem_read value K.sizeof_qemu_call_t,
          Event.mem_write_qcall value
            { request_of K C value s with error := s.guest_svcs_errno }
            K.sizeof_qemu_call_t] } := by
  rw [qemu_call_nonzero K L C env value s hv, request_unknown K L C value _ _ hn]
  rfl

/-- The three classes of request, on the record the read delivers. -/
theorem request_cases {σ A : Type} (K : Constants) (L : ArgsLayout A)
    (C : Collaborators σ A) (value : Nat) (s : State σ) :
    (∃ c, routes K L (request_of K C value s) c) ∨
    ((request_of K C value s).call_number = K.QC_FCNTL ∧
      L.fcntl_cmd (request_of K C value s).args ≠ K.F_GETFL ∧
      L.fcntl_cmd (request_of K C value s).args ≠ K.F_SETFL) ∨
    (request_of K C value s).call_number ∉ K.call_numbers := by
  rcases switch_cases K L C (request_of K C value s) (after_read K C value s) with
    ⟨c, hc, _⟩ | ⟨hn, hg, hs, _⟩ | ⟨hn, _⟩
  · exact Or.inl ⟨c, hc⟩
  · exact Or.inr (Or.inl ⟨hn, hg, hs⟩)
  · exact Or.inr (Or.inr hn)

/-- The table routes a request to at most one handler call. -/
theorem routes_unique {σ A : Type} (K : Constants) (L : ArgsLayout A)
    (C : Collaborators σ A) (r : Run σ A) (q : qemu_call_t A) (c c2 : HandlerCall)
    (h : routes K L q c) (h2 : routes K L q c2) : c = c2 := by
  have e := (switch_routes K L C q r c h).symm.trans (switch_routes K L C q r c2 h2)
  simp only [assign_retval, Prod.mk.injEq, Run.mk.injEq, List.append_cancel_left_eq,
    List.cons.injEq, Event.handler.injEq, and_true] at e
  exact e.2.2

/-- A routed request has a call number of the enumerated set. -/
theorem routes_mem {A : Type} (K : Constants) (L : ArgsLayout A)
    (q : qemu_call_t A) (c : HandlerCall) (h : routes K L q c) :
    q.call_number ∈ K.call_numbers := by
  unfold routes at h
  simp only [Constants.call_numbers, List.mem_cons, List.mem_singleton,
    List.not_mem_nil, or_false]
  rcases h with h | h | h | h | h | h | h | h | h | h | h | h | h
  all_goals simp only [h.1, true_or, or_true]

/-! ## Lemmas on one trap and on sequences of traps -/

theorem qemu_call_zero {σ A : Type} (K : Constants) (L : ArgsLayout A)
    (C : Collaborators σ A) (env : CPUARMState) (s : State σ) :
    qemu_call K L C env 0 s = qemu_call_ready C env { st := s, trace := [] } := by
  simp only [qemu_call, if_true]

/-- The frame of a request trap: it calls no patch primitive and leaves the
flag and the machine object alone. -/
theorem request_frame {σ A : Type} (K : Constants) (L : ArgsLayout A)
    (C : Collaborators σ A) (env : CPUARMState) (value : Nat) (s : State σ)
    (hv : value ≠ 0) :
    install_calls (qemu_call K L C env value s).trace = [] ∧
      (qemu_call K L C env value s).st.hooks_installed = s.hooks_installed ∧
      (qemu_call K L C env value s).st.nms = s.nms := by
  rcases request_cases K L C value s with ⟨c, hc⟩ | ⟨hn, hg, hs⟩ | hn
  · rw [qemu_call_routed K L C env value s c hv hc]
    simp [install_calls, Event.is_install]
  · rw [qemu_call_fcntl_default K L C env value s hv hn hg hs]
    simp [install_calls, Event.is_install]
  · rw [qemu_call_unknown K L C env value s hv hn]
    simp [install_calls, Event.is_install]

/-- The installs of a readiness trap: the address gate, then the list when the
flag was not yet set. -/
theorem ready_installs {σ A : Type} (K : Constants) (L : ArgsLayout A)
    (C : Collaborators σ A) (env : CPUARMState) (s : State σ) :
    install_calls (qemu_call K L C env 0 s).trace =
      gate_installs s.nms ++
        (if s.hooks_installed = true then [] else list_installs s.nms) := by
  rw [qemu_call_zero, ready_trace]
  simp only [install_calls, List.filter_append]
  rw [List.filter_eq_self.mpr (gate_installs_all_install s.nms)]
  have hl := List.filter_eq_self.mpr (list_installs_all_install (A := A) s.nms)
  by_cases hi : s.hooks_installed = true
  · simp [hi, Event.is_install]
  · simp [hi, hl, Event.is_install]

/-- No trap changes the machine object. -/
theorem qemu_call_nms {σ A : Type} (K : Constants) (L : ArgsLayout A)
    (C : Collaborators σ A) (env : CPUARMState) (value : Nat) (s : State σ) :
    (qemu_call K L C env value s).st.nms = s.nms := by
  by_cases hv : value = 0
  · subst hv
    rw [qemu_call_zero]
    exact (ready_state C env s).2.2
  · exact (request_frame K L C env value s hv).2.2

/-- No trap clears the flag. -/
theorem qemu_call_flag_stays {σ A : Type} (K : Constants) (L : ArgsLayout A)
    (C : Collaborators σ A) (env : CPUARMState) (value : Nat) (s : State σ)
    (h : s.hooks_installed = true) :
    (qemu_call K L C env value s).st.hooks_installed = true := by
  by_cases hv : value = 0
  · subst hv
    rw [qemu_call_zero]
    exact (ready_state C env s).1
  · rw [(request_frame K L C env value s hv).2.1]
    exact h

theorem run_traps_cons {σ A : Type} (K : Constants) (L : ArgsLayout A)
    (C : Collaborators σ A) (t : Trap) (ts : List Trap) (s : State σ) :
    run_traps K L C (t :: ts) s =
      ((run_traps K L C ts (qemu_call K L C t.env t.value s).st).1,
        (qemu_call K L C t.env t.value s).trace ::
          (run_traps K L C ts (qemu_call K L C t.env t.value s).st).2) := rfl

theorem run_traps_nms {σ A : Type} (K : Constants) (L : ArgsLayout A)
    (C : Collaborators σ A) (ts : List Trap) (s : State σ) :
    (run_traps K L C ts s).1.nms = s.nms := by
  induction ts generalizing s with
  | nil => rfl
  | cons t ts ih =>
    simp only [run_traps]
    rw [ih, qemu_call_nms]

theorem run_traps_flag_stays {σ A : Type} (K : Constants) (L : ArgsLayout A)
    (C : Collaborators σ A) (ts : List Trap) (s : State σ)
    (h : s.hooks_installed = true) :
    (run_traps K L C ts s).1.hooks_installed = true := by
  induction ts generalizing s with
  | nil => exact h
  | cons t ts ih =>
    simp only [run_traps]
    exact ih _ (qemu_call_flag_stays K L C t.env t.value s h)

/-- Once the flag is set, a readiness trap installs the address gate only and a
request trap installs nothing. -/
theorem run_traps_installed {σ A : Type} (K : Constants) (L : ArgsLayout A)
    (C : Collaborators σ A) (ts : List Trap) (s : State σ)
    (h : s.hooks_installed = true) :
    (run_traps K L C ts s).2.map install_calls =
      ts.map (fun u => if u.value = 0 then gate_installs s.nms else []) := by
  induction ts generalizing s with
  | nil => rfl
  | cons t ts ih =>
    simp only [run_traps, List.map_cons]
    rw [ih _ (qemu_call_flag_stays K L C t.env t.value s h), qemu_call_nms]
    congr 1
    by_cases hv : t.value = 0
    · rw [hv, ready_installs]
      simp [h]
    · rw [(request_frame K L C t.env t.value s hv).1]
      simp [hv]

/-- A list of installs holds no guest-memory access. -/
theorem installs_no_memory {A : Type} (l : List (Event A))
    (hl : ∀ e ∈ l, e.is_install = true) : l.filter Event.is_memory = [] := by
  rw [List.filter_eq_nil_iff]
  intro e he
  have h := hl e he
  cases e <;> first | (simp [Event.is_install] at h; done) | (simp [Event.is_memory])

/-- A list of installs holds no handler call. -/
theorem installs_no_handler {A : Type} (l : List (Event A))
    (hl : ∀ e ∈ l, e.is_install = true) : l.filterMap Event.handler_call = [] := by
  rw [List.filterMap_eq_nil_iff]
  intro e he
  have h := hl e he
  cases e <;> first | rfl | (simp [Event.is_install] at h)

/-- A list of installs holds no write of a call record. -/
theorem installs_no_written {A : Type} (l : List (Event A))
    (hl : ∀ e ∈ l, e.is_install = true) : l.filterMap Event.written_qcall = [] := by
  rw [List.filterMap_eq_nil_iff]
  intro e he
  have h := hl e he
  cases e <;> first | rfl | (simp [Event.is_install] at h)

/-! ## The claims -/

/-- C1. A request `QC_FCNTL` whose sub-command is neither `F_GETFL` nor `F_SETFL`:
whatever the other fields of the record and the prior value of the last-error
slot, `qemu_call` calls no handler, leaves the slot at `EINVAL`, and writes back
the record with `retval = -1` and `error = EINVAL` (and nothing else changed). -/
theorem fcntl_unknown_cmd_einval {σ A : Type} (K : Constants) (L : ArgsLayout A)
    (C : Collaborators σ A) (env : CPUARMState) (value : Nat) (s : State σ)
    (hv : value ≠ 0)
    (hn : (request_of K C value s).call_number = K.QC_FCNTL)
    (hg : L.fcntl_cmd (request_of K C value s).args ≠ K.F_GETFL)
    (hs : L.fcntl_cmd (request_of K C value s).args ≠ K.F_SETFL) :
    handler_calls (qemu_call K L C env value s).trace = [] ∧
      (qemu_call K L C env value s).st.guest_svcs_errno = K.EINVAL ∧
      written_qcalls (qemu_call K L C env value s).trace =
        [{ request_of K C value s with retval := -1, error := K.EINVAL }] := by
  rw [qemu_call_fcntl_default K L C env value s hv hn hg hs]
  simp [handler_calls, written_qcalls, Event.handler_call, Event.written_qcall]

/-- The instance of C1 at `fd = 7`, `cmd = 99`. -/
theorem fcntl_unknown_cmd_einval_witness :
    L0.fcntl_fd (request_of K0 C0 0x4000 s0).args = 7 ∧
      L0.fcntl_cmd (request_of K0 C0 0x4000 s0).args = 99 ∧
      handler_calls (qemu_call K0 L0 C0 env0 0x4000 s0).trace = [] ∧
      (qemu_call K0 L0 C0 env0 0x4000 s0).st.guest_svcs_errno = 22 ∧
      written_qcalls (qemu_call K0 L0 C0 env0 0x4000 s0).trace =
        [{ call_number := 0x101, args := [7, 99], retval := -1, error := 22 }] :=
  ⟨by decide, by decide,
    fcntl_unknown_cmd_einval K0 L0 C0 env0 0x4000 s0 (by decide) (by decide)
      (by decide) (by decide)⟩

/-- C2, as stated, fails.  The request at `0x5000` has the unrecognised call
number 0 and arrives with `error = 5`; the last-error slot is 0; the record
written back has `retval = 11` as read but `error = 0`, the slot, not the 5 that
was read. -/
theorem unknown_call_error_not_kept :
    (request_of K0 C0 0x5000 s0).call_number ∉ K0.call_numbers ∧
      (request_of K0 C0 0x5000 s0).retval = 11 ∧
      (request_of K0 C0 0x5000 s0).error = 5 ∧
      s0.guest_svcs_errno = 0 ∧
      written_qcalls (qemu_call K0 L0 C0 env0 0x5000 s0).trace =
        [{ call_number := 0, args := [], retval := 11, error := 0 }] ∧
      ¬ (∀ w ∈ written_qcalls (qemu_call K0 L0 C0 env0 0x5000 s0).trace,
          w.retval = (request_of K0 C0 0x5000 s0).retval ∧
          w.error = (request_of K0 C0 0x5000 s0).error) := by
  refine ⟨by decide, by decide, by decide, by decide, by decide, ?_⟩
  intro h
  have h5 := (h { call_number := 0, args := [], retval := 11, error := 0 }
    (by decide)).2
  revert h5
  decide

/-- C2, amended.  A request whose call number is outside the enumerated set:
`qemu_call` calls no handler, leaves the last-error slot as it was, and writes
back the record as read except that `error` holds the value of the last-error
slot; so `retval` is the value read, and `error` is the slot, whatever `error`
was read. -/
theorem unknown_call_keeps_retval {σ A : Type} (K : Constants) (L : ArgsLayout A)
    (C : Collaborators σ A) (env : CPUARMState) (value : Nat) (s : State σ)
    (hv : value ≠ 0)
    (hn : (request_of K C value s).call_number ∉ K.call_numbers) :
    handler_calls (qemu_call K L C env value s).trace = [] ∧
      (qemu_call K L C env value s).st.guest_svcs_errno = s.guest_svcs_errno ∧
      written_qcalls (qemu_call K L C env value s).trace =
        [{ request_of K C value s with error := s.guest_svcs_errno }] := by
  rw [qemu_call_unknown K L C env value s hv hn]
  simp [handler_calls, written_qcalls, Event.handler_call, Event.written_qcall]

/-- The instance of the amended C2 at the request of `0x5000`. -/
theorem unknown_call_keeps_retval_witness :
    handler_calls (qemu_call K0 L0 C0 env0 0x5000 s0).trace = [] ∧
      (qemu_call K0 L0 C0 env0 0x5000 s0).st.guest_svcs_errno = 0 ∧
      written_qcalls (qemu_call K0 L0 C0 env0 0x5000 s0).trace =
        [{ call_number := 0, args := [], retval := 11, error := 0 }] :=
  unknown_call_keeps_retval K0 L0 C0 env0 0x5000 s0 (by decide) (by decide)

/-- C3. On a request trap the `error` field of the record written back is the
last-error slot as it stands when the record is written: the slot the handler
left when the request is routed to a handler, the slot from before the call
when the call number is unrecognised.  Hence a following request with an
unrecognised call number answers with the slot the first call left, whatever
`error` that second request carried. -/
theorem error_field_is_last_error_slot {σ A : Type} (K : Constants)
    (L : ArgsLayout A) (C : Collaborators σ A) (env : CPUARMState) (value : Nat)
    (s : State σ) (hv : value ≠ 0) :
    ∃ w, written_qcalls (qemu_call K L C env value s).trace = [w] ∧
      w.error = (qemu_call K L C env value s).st.guest_svcs_errno ∧
      (∀ c, routes K L (request_of K C value s) c →
        handler_calls (qemu_call K L C env value s).trace = [c] ∧
        w.error = (C.qc_handle c s.guest_svcs_errno
          (C.read_qcall s.host value K.sizeof_qemu_call_t).1).guest_svcs_errno) ∧
      ((request_of K C value s).call_number ∉ K.call_numbers →
        handler_calls (qemu_call K L C env value s).trace = [] ∧
        w.error = s.guest_svcs_errno) ∧
      (∀ (t : Trap), t.value ≠ 0 →
        (request_of K C t.value (qemu_call K L C env value s).st).call_number ∉
          K.call_numbers →
        ∃ tr w2, (run_traps K L C [⟨env, value⟩, t] s).2 =
            [(qemu_call K L C env value s).trace, tr] ∧
          written_qcalls tr = [w2] ∧ w2.error = w.error) := by
  have two : ∀ (e : Int), (qemu_call K L C env value s).st.guest_svcs_errno = e →
      ∀ (t : Trap), t.value ≠ 0 →
        (request_of K C t.value (qemu_call K L C env value s).st).call_number ∉
          K.call_numbers →
        ∃ tr w2, (run_traps K L C [⟨env, value⟩, t] s).2 =
            [(qemu_call K L C env value s).trace, tr] ∧
          written_qcalls tr = [w2] ∧ w2.error = e := by
    intro e he t ht hu
    refine ⟨(qemu_call K L C t.env t.value (qemu_call K L C env value s).st).trace,
      { request_of K C t.value (qemu_call K L C env value s).st with
          error := (qemu_call K L C env value s).st.guest_svcs_errno }, rfl, ?_, he⟩
    rw [qemu_call_unknown K L C t.env t.value _ ht hu]
    simp [written_qcalls, Event.written_qcall]
  rcases request_cases K L C value s with ⟨c, hc⟩ | ⟨hn, hg, hs⟩ | hn
  · have hq := qemu_call_routed K L C env value s c hv hc
    refine ⟨{ request_of K C value s with
        retval := (result_of K C value s c).retval,
        error := (result_of K C value s c).guest_svcs_errno }, ?_, ?_, ?_, ?_, ?_⟩
    · rw [hq]
      simp [written_qcalls, Event.written_qcall]
    · rw [hq]
    · intro c2 hc2
      have hcc := routes_unique K L C (after_read K C value s) _ c c2 hc hc2
      subst hcc
      refine ⟨?_, rfl⟩
      rw [hq]
      simp [handler_calls, Event.handler_call]
    · intro hu
      exact absurd (routes_mem K L _ c hc) hu
    · exact two _ (by rw [hq])
  · have hq := qemu_call_fcntl_default K L C env value s hv hn hg hs
    have hmem : (request_of K C value s).call_number ∈ K.call_numbers := by
      rw [hn]
      simp [Constants.call_numbers]
    refine ⟨{ request_of K C value s with retval := -1, error := K.EINVAL },
      ?_, ?_, ?_, ?_, ?_⟩
    · rw [hq]
      simp [written_qcalls, Event.written_qcall]
    · rw [hq]
    · intro c2 hc2
      exfalso
      have e := (switch_routes K L C _ (after_read K C value s) c2 hc2).symm.trans
        (switch_fcntl_default K L C _ (after_read K C value s) hn hg hs)
      simp [assign_retval] at e
    · intro hu
      exact absurd hmem hu
    · exact two _ (by rw [hq])
  · have hq := qemu_call_unknown K L C env value s hv hn
    refine ⟨{ request_of K C value s with error := s.guest_svcs_errno },
      ?_, ?_, ?_, ?_, ?_⟩
    · rw [hq]
      simp [written_qcalls, Event.written_qcall]
    · rw [hq]
    · intro c2 hc2
      exact absurd (routes_mem K L _ c2 hc2) hn
    · intro _
      refine ⟨?_, rfl⟩
      rw [hq]
      simp [handler_calls, Event.handler_call]
    · exact two _ (by rw [hq])

/-- The instance of C3 at a `close(5)` that fails and leaves the slot at 9,
followed by the unrecognised request of `0x5000`, which arrives with
`error = 5` and is answered with `error = 9`. -/
theorem error_field_is_last_error_slot_witness :
    ((0x6000 : Nat) ≠ 0 ∧
      routes K0 L0 (request_of K0 C0 0x6000 s0) (.qc_handle_close 5) ∧
      (request_of K0 C0 0x5000 (qemu_call K0 L0 C0 env0 0x6000 s0).st).call_number ∉
        K0.call_numbers ∧
      (run_traps K0 L0 C0 [⟨env0, 0x6000⟩, ⟨env0, 0x5000⟩] s0).2.map written_qcalls =
        [[{ call_number := 0x100, args := [5], retval := -1, error := 9 }],
          [{ call_number := 0, args := [], retval := 11, error := 9 }]]) ∧
    ∃ w, written_qcalls (qemu_call K0 L0 C0 env0 0x6000 s0).trace = [w] ∧
      w.error = (qemu_call K0 L0 C0 env0 0x6000 s0).st.guest_svcs_errno ∧
      (∀ c, routes K0 L0 (request_of K0 C0 0x6000 s0) c →
        handler_calls (qemu_call K0 L0 C0 env0 0x6000 s0).trace = [c] ∧
        w.error = (C0.qc_handle c s0.guest_svcs_errno
          (C0.read_qcall s0.host 0x6000 K0.sizeof_qemu_call_t).1).guest_svcs_errno) ∧
      ((request_of K0 C0 0x6000 s0).call_number ∉ K0.call_numbers →
        handler_calls (qemu_call K0 L0 C0 env0 0x6000 s0).trace = [] ∧
        w.error = s0.guest_svcs_errno) ∧
      (∀ (t : Trap), t.value ≠ 0 →
        (request_of K0 C0 t.value (qemu_call K0 L0 C0 env0 0x6000 s0).st).call_number ∉
          K0.call_numbers →
        ∃ tr w2, (run_traps K0 L0 C0 [⟨env0, 0x6000⟩, t] s0).2 =
            [(qemu_call K0 L0 C0 env0 0x6000 s0).trace, tr] ∧
          written_qcalls tr = [w2] ∧ w2.error = w.error) :=
  ⟨⟨by decide, by decide, by decide, by decide⟩,
    error_field_is_last_error_slot K0 L0 C0 env0 0x6000 s0 (by decide)⟩

/-- C4. Start with `hooks_installed` false and take any sequence of traps with
at least one readiness trap: request traps `pre`, the first readiness trap `t`,
then any traps `rest`.  The patch primitive is applied to
`hook_funcs[0 .. hook_funcs_count-1]` during `t` and only then, once per entry in
index order with that entry's fields (after the install of the address gate);
no request trap installs anything, every later readiness trap installs the
address gate only; the flag is set at the end, and from a state in which it is
set no sequence of traps clears it. -/
theorem hook_funcs_installed_on_first_ready_only {σ A : Type} (K : Constants)
    (L : ArgsLayout A) (C : Collaborators σ A) (pre : List Trap) (t : Trap)
    (rest : List Trap) (s : State σ) (hpre : ∀ p ∈ pre, p.value ≠ 0)
    (ht : t.value = 0) (hs : s.hooks_installed = false) :
    (run_traps K L C (pre ++ t :: rest) s).2.map install_calls =
        pre.map (fun _ => []) ++
          (gate_installs s.nms ++
            (List.range s.nms.hook_funcs_count).map
              (fun i => install_event (s.nms.hook_funcs i))) ::
          rest.map (fun u => if u.value = 0 then gate_installs s.nms else []) ∧
      (run_traps K L C (pre ++ t :: rest) s).1.hooks_installed = true ∧
      (∀ (ts : List Trap) (s2 : State σ), s2.hooks_installed = true →
        (run_traps K L C ts s2).1.hooks_installed = true) := by
  refine ⟨?_, ?_, fun ts s2 h2 => run_traps_flag_stays K L C ts s2 h2⟩
  · induction pre generalizing s with
    | nil =>
      simp only [List.nil_append, run_traps, List.map_cons, List.map_nil]
      have hf : (qemu_call K L C t.env t.value s).st.hooks_installed = true := by
        rw [ht, qemu_call_zero]
        exact (ready_state C t.env s).1
      rw [run_traps_installed K L C rest _ hf, qemu_call_nms, ht, ready_installs]
      simp [hs, list_installs]
    | cons p pre ih =>
      have hp : p.value ≠ 0 := hpre p (List.mem_cons_self _ _)
      have hf := request_frame K L C p.env p.value s hp
      rw [List.cons_append, run_traps_cons]
      simp only [List.map_cons, List.cons_append]
      rw [ih _ (fun x hx => hpre x (List.mem_cons_of_mem _ hx)) (hf.2.1.trans hs),
        hf.1, hf.2.2]
  · induction pre generalizing s with
    | nil =>
      simp only [List.nil_append, run_traps]
      apply run_traps_flag_stays
      rw [ht, qemu_call_zero]
      exact (ready_state C t.env s).1
    | cons p pre ih =>
      have hp : p.value ≠ 0 := hpre p (List.mem_cons_self _ _)
      have hf := request_frame K L C p.env p.value s hp
      rw [List.cons_append, run_traps_cons]
      exact ih _ (fun x hx => hpre x (List.mem_cons_of_mem _ hx)) (hf.2.1.trans hs)

/-- The instance of C4 at the sequence request, ready, request, ready: the two
list entries are installed during the first readiness trap only. -/
theorem hook_funcs_installed_on_first_ready_only_witness :
    ((run_traps K0 L0 C0 (pre0 ++ ready0 :: rest0) s0).2.map install_calls =
      [[],
        [Event.install 0x1000 0x2000 0x3000 0x4000 0x5000 16 64 9,
          Event.install 0x10000 0x20000 0x30000 0x40000 0x50000 8 32 10,
          Event.install 0x10001 0x20001 0x30001 0x40001 0x50001 8 32 10],
        [],
        [Event.install 0x1000 0x2000 0x3000 0x4000 0x5000 16 64 9]]) ∧
    ((run_traps K0 L0 C0 (pre0 ++ ready0 :: rest0) s0).2.map install_calls =
        pre0.map (fun _ => []) ++
          (gate_installs s0.nms ++
            (List.range s0.nms.hook_funcs_count).map
              (fun i => install_event (s0.nms.hook_funcs i))) ::
          rest0.map (fun u => if u.value = 0 then gate_installs s0.nms else []) ∧
      (run_traps K0 L0 C0 (pre0 ++ ready0 :: rest0) s0).1.hooks_installed = true ∧
      (∀ (ts : List Trap) (s2 : State Mem0), s2.hooks_installed = true →
        (run_traps K0 L0 C0 ts s2).1.hooks_installed = true)) :=
  ⟨by decide,
    hook_funcs_installed_on_first_ready_only K0 L0 C0 pre0 ready0 rest0 s0
      (by decide) rfl rfl⟩

/-- C5. Every readiness trap, whatever the flag `hooks_installed`, starts with
exactly one call of the patch primitive on the eight fields of `nms->hook` when
`hook->va` is not zero, and with no such call when it is zero; what follows is
the installs of the list (only when the flag was not yet set) and the emulated
store.  The machine object, `nms->hook` included, is the same after the trap and
after any sequence of traps, so the gate install recurs on every readiness trap
while the address is not zero. -/
theorem gate_install_on_every_ready_trap {σ A : Type} (K : Constants)
    (L : ArgsLayout A) (C : Collaborators σ A) (env : CPUARMState) (s : State σ) :
    (qemu_call K L C env 0 s).trace =
        (if s.nms.hook.va ≠ 0 then
          [Event.install s.nms.hook.va s.nms.hook.pa s.nms.hook.buf_va
            s.nms.hook.buf_pa s.nms.hook.code s.nms.hook.code_size
            s.nms.hook.buf_size s.nms.hook.scratch_reg]
        else []) ++
        (if s.hooks_installed = true then []
          else (List.range s.nms.hook_funcs_count).map
            (fun i => install_event (s.nms.hook_funcs i))) ++
        [Event.mem_write_value (env.xregs 23) (env.xregs 20) 8] ∧
      (qemu_call K L C env 0 s).st.nms = s.nms ∧
      (∀ ts : List Trap, (run_traps K L C ts s).1.nms = s.nms) := by
  refine ⟨?_, qemu_call_nms K L C env 0 s, fun ts => run_traps_nms K L C ts s⟩
  rw [qemu_call_zero, ready_trace]
  by_cases hv : s.nms.hook.va = 0
  · simp [gate_installs, hv, list_installs]
  · have hv2 : ¬ 0 = s.nms.hook.va := fun e => hv e.symm
    simp [gate_installs, hv, hv2, list_installs, install_event]

/-- C6. On a readiness trap, after the installs, the entry point makes exactly
one guest-memory access: it writes the value of `x20`, 8 bytes, at the address
held in `x23`.  It reads no call record and writes none, calls no handler, and
leaves the last-error slot as it was. -/
theorem ready_trap_emulates_store {σ A : Type} (K : Constants)
    (L : ArgsLayout A) (C : Collaborators σ A) (env : CPUARMState) (s : State σ) :
    (∃ pre, (qemu_call K L C env 0 s).trace =
        pre ++ [Event.mem_write_value (env.xregs 23) (env.xregs 20) 8] ∧
        ∀ e ∈ pre, e.is_install = true) ∧
      memory_calls (qemu_call K L C env 0 s).trace =
        [Event.mem_write_value (env.xregs 23) (env.xregs 20) 8] ∧
      handler_calls (qemu_call K L C env 0 s).trace = [] ∧
      written_qcalls (qemu_call K L C env 0 s).trace = [] ∧
      (qemu_call K L C env 0 s).st.guest_svcs_errno = s.guest_svcs_errno := by
  have hpre : ∀ e ∈ gate_installs s.nms ++
      (if s.hooks_installed = true then [] else list_installs s.nms),
      Event.is_install (A := A) e = true := by
    intro e he
    rcases List.mem_append.mp he with h | h
    · exact gate_installs_all_install s.nms e h
    · split_ifs at h
      · simp at h
      · exact list_installs_all_install s.nms e h
  rw [qemu_call_zero, ready_trace]
  refine ⟨⟨_, rfl, hpre⟩, ?_, ?_, ?_, (ready_state C env s).2.1⟩
  · unfold memory_calls
    rw [List.filter_append, installs_no_memory _ hpre]
    rfl
  · unfold handler_calls
    rw [List.filterMap_append, installs_no_handler _ hpre]
    rfl
  · unfold written_qcalls
    rw [List.filterMap_append, installs_no_written _ hpre]
    rfl

/-- C7. On a request trap the entry point makes exactly two guest-memory
accesses, a read and then a write, both at the address `value` and both of
`sizeof(qemu_call_t)` bytes, for every call number (recognised or not, and for
the unrecognised fcntl sub-command); it never calls the patch primitive and
leaves `hooks_installed` as it was. -/
theorem request_trap_reads_then_writes {σ A : Type} (K : Constants)
    (L : ArgsLayout A) (C : Collaborators σ A) (env : CPUARMState) (value : Nat)
    (s : State σ) (hv : value ≠ 0) :
    (∃ w, memory_calls (qemu_call K L C env value s).trace =
        [Event.mem_read value K.sizeof_qemu_call_t,
          Event.mem_write_qcall value w K.sizeof_qemu_call_t]) ∧
      install_calls (qemu_call K L C env value s).trace = [] ∧
      (qemu_call K L C env value s).st.hooks_installed = s.hooks_installed := by
  have hf := request_frame K L C env value s hv
  refine ⟨?_, hf.1, hf.2.1⟩
  rcases request_cases K L C value s with ⟨c, hc⟩ | ⟨hn, hg, hs⟩ | hn
  · rw [qemu_call_routed K L C env value s c hv hc]
    exact ⟨_, rfl⟩
  · rw [qemu_call_fcntl_default K L C env value s hv hn hg hs]
    exact ⟨_, rfl⟩
  · rw [qemu_call_unknown K L C env value s hv hn]
    exact ⟨_, rfl⟩

/-- The instance of C7 at the unrecognised request of `0x5000`. -/
theorem request_trap_reads_then_writes_witness :
    (∃ w, memory_calls (qemu_call K0 L0 C0 env0 0x5000 s0).trace =
        [Event.mem_read 0x5000 52, Event.mem_write_qcall 0x5000 w 52]) ∧
      install_calls (qemu_call K0 L0 C0 env0 0x5000 s0).trace = [] ∧
      (qemu_call K0 L0 C0 env0 0x5000 s0).st.hooks_installed = false :=
  request_trap_reads_then_writes K0 L0 C0 env0 0x5000 s0 (by decide)

/-- C8. A request that the table routes (any enumerated call number other than
`QC_FCNTL`, or `QC_FCNTL` with `F_GETFL` or `F_SETFL`): `qemu_call` makes exactly
one handler call, the one the table gives for the request, with the fields of
the matching `args` variant in order, and the `retval` written back is what that
handler returned. -/
theorem handled_request_calls_its_handler {σ A : Type} (K : Constants)
    (L : ArgsLayout A) (C : Collaborators σ A) (env : CPUARMState) (value : Nat)
    (s : State σ) (hv : value ≠ 0) (hh : handled K L (request_of K C value s)) :
    ∃ c, routes K L (request_of K C value s) c ∧
      (∀ c2, routes K L (request_of K C value s) c2 → c2 = c) ∧
      handler_calls (qemu_call K L C env value s).trace = [c] ∧
      ∃ w, written_qcalls (qemu_call K L C env value s).trace = [w] ∧
        w.retval = (C.qc_handle c s.guest_svcs_errno
          (C.read_qcall s.host value K.sizeof_qemu_call_t).1).retval := by
  rcases request_cases K L C value s with ⟨c, hc⟩ | ⟨hn, hg, hs⟩ | hn
  · refine ⟨c, hc, fun c2 hc2 =>
      routes_unique K L C (after_read K C value s) _ c2 c hc2 hc, ?_, ?_⟩
    · rw [qemu_call_routed K L C env value s c hv hc]
      rfl
    · rw [qemu_call_routed K L C env value s c hv hc]
      exact ⟨_, rfl, rfl⟩
  · exfalso
    rcases hh with ⟨_, h2⟩ | ⟨_, h2 | h2⟩
    · exact h2 hn
    · exact hg h2
    · exact hs h2
  · exfalso
    rcases hh with ⟨h1, _⟩ | ⟨h1, _⟩
    · exact hn h1
    · apply hn
      rw [h1]
      simp [Constants.call_numbers]

/-- The instance of C8 at the request `socket(2, 1, 0)` of `0x7000`. -/
theorem handled_request_calls_its_handler_witness :
    handled K0 L0 (request_of K0 C0 0x7000 s0) ∧
    ∃ c, routes K0 L0 (request_of K0 C0 0x7000 s0) c ∧
      (∀ c2, routes K0 L0 (request_of K0 C0 0x7000 s0) c2 → c2 = c) ∧
      handler_calls (qemu_call K0 L0 C0 env0 0x7000 s0).trace = [c] ∧
      ∃ w, written_qcalls (qemu_call K0 L0 C0 env0 0x7000 s0).trace = [w] ∧
        w.retval = (C0.qc_handle c s0.guest_svcs_errno
          (C0.read_qcall s0.host 0x7000 K0.sizeof_qemu_call_t).1).retval :=
  ⟨by decide,
    handled_request_calls_its_handler K0 L0 C0 env0 0x7000 s0 (by decide) (by decide)⟩

/-- C9. On a request trap the record written back has the `call_number` and the
`args` of the record that was read, for every request, recognised or not. -/
theorem response_keeps_call_number_and_args {σ A : Type} (K : Constants)
    (L : ArgsLayout A) (C : Collaborators σ A) (env : CPUARMState) (value : Nat)
    (s : State σ) (hv : value ≠ 0) :
    ∃ w, written_qcalls (qemu_call K L C env value s).trace = [w] ∧
      w.call_number = (request_of K C value s).call_number ∧
      w.args = (request_of K C value s).args := by
  rcases request_cases K L C value s with ⟨c, hc⟩ | ⟨hn, hg, hs⟩ | hn
  · rw [qemu_call_routed K L C env value s c hv hc]
    exact ⟨_, rfl, rfl, rfl⟩
  · rw [qemu_call_fcntl_default K L C env value s hv hn hg hs]
    exact ⟨_, rfl, rfl, rfl⟩
  · rw [qemu_call_unknown K L C env value s hv hn]
    exact ⟨_, rfl, rfl, rfl⟩

/-- The instance of C9 at the request `socket(2, 1, 0)` of `0x7000`. -/
theorem response_keeps_call_number_and_args_witness :
    ∃ w, written_qcalls (qemu_call K0 L0 C0 env0 0x7000 s0).trace = [w] ∧
      w.call_number = 0x110 ∧ w.args = [2, 1, 0] :=
  response_keeps_call_number_and_args K0 L0 C0 env0 0x7000 s0 (by decide)

/-- C10. Two request records with the same `call_number` and the same `args`,
handled from the same run (same last-error slot, same host state, same
handlers): lines 97-180 of `qemu_call` make the same handler calls for both,
and when the call number is one of the enumerated set (`QC_FCNTL` with any
sub-command included) the two runs are equal altogether, the record written back
included.  The incoming `retval` and `error` play no part. -/
theorem response_ignores_incoming_retval_and_error {σ A : Type} (K : Constants)
    (L : ArgsLayout A) (C : Collaborators σ A) (value : Nat)
    (q1 q2 : qemu_call_t A) (r : Run σ A)
    (hn : q1.call_number = q2.call_number) (ha : q1.args = q2.args) :
    handler_calls (qemu_call_request K L C value q1 r).trace =
        handler_calls (qemu_call_request K L C value q2 r).trace ∧
      (q1.call_number ∈ K.call_numbers →
        written_qcalls (qemu_call_request K L C value q1 r).trace =
          written_qcalls (qemu_call_request K L C value q2 r).trace ∧
        qemu_call_request K L C value q1 r = qemu_call_request K L C value q2 r) := by
  obtain ⟨n1, a1, v1, e1⟩ := q1
  obtain ⟨n2, a2, v2, e2⟩ := q2
  simp only at hn ha
  subst hn
  subst ha
  have key : ∀ v e, (n1 ∈ K.call_numbers →
      qemu_call_request K L C value ⟨n1, a1, v1, e1⟩ r =
        qemu_call_request K L C value ⟨n1, a1, v, e⟩ r) ∧
      handler_calls (qemu_call_request K L C value ⟨n1, a1, v1, e1⟩ r).trace =
        handler_calls (qemu_call_request K L C value ⟨n1, a1, v, e⟩ r).trace := by
    intro v e
    rcases switch_cases K L C ⟨n1, a1, v1, e1⟩ r with
      ⟨c, hc, _⟩ | ⟨h1, hg, hs, _⟩ | ⟨hu, _⟩
    · have hc2 : routes K L ⟨n1, a1, v, e⟩ c := hc
      rw [request_routed K L C value _ r c hc, request_routed K L C value _ r c hc2]
      exact ⟨fun _ => rfl, rfl⟩
    · rw [request_fcntl_default K L C value ⟨n1, a1, v1, e1⟩ r h1 hg hs,
        request_fcntl_default K L C value ⟨n1, a1, v, e⟩ r h1 hg hs]
      exact ⟨fun _ => rfl, rfl⟩
    · refine ⟨fun hm => absurd hm hu, ?_⟩
      rw [request_unknown K L C value ⟨n1, a1, v1, e1⟩ r hu,
        request_unknown K L C value ⟨n1, a1, v, e⟩ r hu]
      simp [handler_calls, Event.handler_call]
  refine ⟨(key v2 e2).2, fun hm => ?_⟩
  have h := (key v2 e2).1 hm
  exact ⟨by rw [h], h⟩

/-- The instance of C10 at two `socket(2, 1, 0)` records, one arriving with
`retval = 5`, `error = 6`, the other with zeros. -/
theorem response_ignores_incoming_retval_and_error_witness :
    handler_calls (qemu_call_request K0 L0 C0 0x7000
        { call_number := 0x110, args := [2, 1, 0], retval := 5, error := 6 }
        { st := s0, trace := [] }).trace =
      handler_calls (qemu_call_request K0 L0 C0 0x7000
        { call_number := 0x110, args := [2, 1, 0], retval := 0, error := 0 }
        { st := s0, trace := [] }).trace ∧
      ((0x110 : Int) ∈ K0.call_numbers →
        written_qcalls (qemu_call_request K0 L0 C0 0x7000
            { call_number := 0x110, args := [2, 1, 0], retval := 5, error := 6 }
            { st := s0, trace := [] }).trace =
          written_qcalls (qemu_call_request K0 L0 C0 0x7000
            { call_number := 0x110, args := [2, 1, 0], retval := 0, error := 0 }
            { st := s0, trace := [] }).trace ∧
        qemu_call_request K0 L0 C0 0x7000
            { call_number := 0x110, args := [2, 1, 0], retval := 5, error := 6 }
            { st := s0, trace := [] } =
          qemu_call_request K0 L0 C0 0x7000
            { call_number := 0x110, args := [2, 1, 0], retval := 0, error := 0 }
            { st := s0, trace := [] }) :=
  response_ignores_incoming_retval_and_error K0 L0 C0 0x7000
    { call_number := 0x110, args := [2, 1, 0], retval := 5, error := 6 }
    { call_number := 0x110, args := [2, 1, 0], retval := 0, error := 0 }
    { st := s0, trace := [] } rfl rfl

end GuestServices
